import Mathlib

/-!
Verification of the register codec and row executor of
`modbus_portal_cli.py` (Modbus/TCP portal core).

Conventions of the embedding:
* Python `str` values are Lean `String`s; all character processing is done
  with structural functions over `String.data` (lists of characters).
* Python arbitrary-precision integers are `Int`/`Nat`; bit masking
  `x & 0xFFFF` on an `int` is `x % 2^16` (two's-complement semantics),
  `(b & 0xFF) << 8 | (c & 0xFF)` is `(b % 256) * 256 + (c % 256)` (the bit
  ranges are disjoint), and `(r >> 8) & 0xFF` is `r / 256 % 256`.
* Python floats are modelled as exact rationals `ℚ`; `round` is Python 3's
  round-half-to-even.  IEEE-754 single-precision conversion performed by
  `struct.pack(">f", ·)` / `struct.unpack(">f", ·)` is kept abstract as a
  pair of functions `ℚ → Nat` (value to 32-bit pattern) and `Nat → ℚ`
  (pattern to value) supplied as parameters.
* Fallible Python operations (`float(...)`, `struct.pack(">i", ...)`) are
  `Option`-valued; a raised exception at a modelled call boundary is a
  `PyResult.exn`.
-/

/-! ### Character and string helpers (Python `str` semantics) -/

/-- Python's whitespace class, as used by `str.strip()` and the regex class
`\s` (ASCII range): space, tab, newline, carriage return, vertical tab,
form feed. -/
def pySpace (c : Char) : Bool :=
  c = ' ' ∨ c = '\t' ∨ c = '\n' ∨ c = '\r' ∨ c = '\x0b' ∨ c = '\x0c'

/-- `str.strip()` on a character list. -/
def stripC (cs : List Char) : List Char :=
  ((cs.dropWhile pySpace).reverse.dropWhile pySpace).reverse

/-- `str.strip()`. -/
def pyStrip (s : String) : String := ⟨stripC s.data⟩

/-- `str.lower()` (ASCII case mapping suffices for the tokens involved). -/
def pyLower (s : String) : String := ⟨s.data.map Char.toLower⟩

/-- `str.upper()`. -/
def pyUpper (s : String) : String := ⟨s.data.map Char.toUpper⟩

/-- Membership in the delimiter class of `re.split(r"[,\s;]+", ...)`. -/
def isDelim (c : Char) : Bool := c = ',' ∨ c = ';' ∨ pySpace c

/-- Splitting on runs of delimiters, dropping empty pieces; `acc` holds the
current token reversed. -/
def splitRunsAux : List Char → List Char → List (List Char)
  | [], acc => if acc = [] then [] else [acc.reverse]
  | c :: cs, acc =>
    if isDelim c then
      if acc = [] then splitRunsAux cs [] else acc.reverse :: splitRunsAux cs []
    else splitRunsAux cs (c :: acc)

/-- `[p for p in re.split(r"[,\s;]+", s.strip()) if p != ""]`: the token list
used both by `build_registers` and by the write-multiple-coils branch of
`perform_row`. -/
def splitTokens (s : String) : List String :=
  (splitRunsAux (stripC s.data) []).map fun t => ⟨t⟩

/-- Numeric value of a decimal digit character. -/
def digitVal (c : Char) : Nat := c.toNat - 48

/-- Value of a string of decimal digits. -/
def digitsToNat (cs : List Char) : Nat := cs.foldl (fun a c => a * 10 + digitVal c) 0

/-- Python `float()` applied to a string, modelled for the decimal subset of
its grammar: surrounding whitespace stripped, optional sign, one or more
digits, optional `.` followed by optional digits.  Exponent forms, `inf`,
`nan`, leading-dot forms and underscores are not modelled and yield `none`
(conservative: the claims only condition on successful parses of plain
decimal literals).  Real arithmetic is exact over `ℚ`. -/
def pyFloat (s : String) : Option ℚ :=
  let cs := stripC s.data
  let signed : ℚ × List Char :=
    match cs with
    | '+' :: r => (1, r)
    | '-' :: r => (-1, r)
    | r => (1, r)
  let ip := signed.2.takeWhile Char.isDigit
  let rest := signed.2.dropWhile Char.isDigit
  if ip = [] then none
  else
    match rest with
    | [] => some (signed.1 * (digitsToNat ip : ℚ))
    | '.' :: frac =>
      if frac.all Char.isDigit then
        some (signed.1 * ((digitsToNat ip : ℚ) + (digitsToNat frac : ℚ) / (10 : ℚ) ^ frac.length))
      else none
    | _ => none

/-! ### Host:port parsing (`_HOSTPORT_RE` and `parse_host_port`) -/

/-- The optional `(?::(?P<port>\d{1,5}))?` suffix followed by end of input:
on the empty remainder there is no port; on `:` followed by one to five
digits consuming the rest, the port is their value; anything else fails the
whole match. -/
def parsePortOpt : List Char → Option (Option Nat)
  | [] => some none
  | ':' :: ds =>
    if ds ≠ [] ∧ ds.length ≤ 5 ∧ ds.all Char.isDigit then some (some (digitsToNat ds))
    else none
  | _ => none

/-- The `\[(?P<ipv6>[^]]+)\]` alternative: a bracketed, nonempty,
`]`-free literal, then the optional port suffix. -/
def matchBracketHost (cs : List Char) : Option (List Char × Option Nat) :=
  match cs with
  | '[' :: rest =>
    let inner := rest.takeWhile fun c => c ≠ ']'
    let after := rest.dropWhile fun c => c ≠ ']'
    match after with
    | ']' :: tail => if inner = [] then none else (parsePortOpt tail).map fun p => (inner, p)
    | _ => none
  | _ => none

/-- The `(?P<host>[^:\s]+)` alternative: a nonempty run of characters that
are neither `:` nor whitespace (brackets are allowed here, which is why a
failed bracket form can still match as a plain host), then the optional
port suffix. -/
def matchPlainHost (cs : List Char) : Option (List Char × Option Nat) :=
  let host := cs.takeWhile fun c => ¬(c = ':' ∨ pySpace c = true)
  let rest := cs.dropWhile fun c => ¬(c = ':' ∨ pySpace c = true)
  if host = [] then none else (parsePortOpt rest).map fun p => (host, p)

/-- `_HOSTPORT_RE.match`: the anchors `^\s*`/`\s*$` reduce matching to the
whitespace-stripped text, on which the bracket alternative is tried first
and the plain-host alternative second. -/
def matchHostPort (cs : List Char) : Option (List Char × Option Nat) :=
  (matchBracketHost cs).orElse fun _ => matchPlainHost cs

/-- `parse_host_port` from modbus_portal_cli.py. -/
def parse_host_port (ip_text : String) (default_port : Nat) : String × Nat :=
  if ip_text = "" then ("", default_port)
  else
    match matchHostPort (stripC ip_text.data) with
    | some (host, portOpt) => (pyStrip ⟨host⟩, portOpt.getD default_port)
    | none => (pyStrip ip_text, default_port)

/-! ### Numeric token parsing, scaling, rounding -/

/-- `_to_num` from modbus_portal_cli.py: boolean words (checked on the
stripped, lowercased token) map to 1/0, otherwise `float(token)` on the
original token. -/
def _to_num (token : String) : Option ℚ :=
  let t := pyLower (pyStrip token)
  if t = "true" ∨ t = "on" ∨ t = "yes" then some 1
  else if t = "false" ∨ t = "off" ∨ t = "no" then some 0
  else pyFloat token

/-- `math.isclose(s, 1.0)` with the default `rel_tol=1e-9`, `abs_tol=0.0`,
over `ℚ`. -/
def iscloseOne (s : ℚ) : Bool := |s - 1| ≤ (1 : ℚ)/1000000000 * max |s| 1

/-- `_apply_scale_write`: `v / scale` unless the guard
`scale not in (None, 0, 1) and not math.isclose(scale, 1.0)` fails (the
`None` case cannot arise for a numeric scale). -/
def _apply_scale_write (v scale : ℚ) : ℚ :=
  if scale ≠ 0 ∧ scale ≠ 1 ∧ ¬ iscloseOne scale then v / scale else v

/-- `_apply_scale_read`: `v * scale` under the same guard. -/
def _apply_scale_read (v scale : ℚ) : ℚ :=
  if scale ≠ 0 ∧ scale ≠ 1 ∧ ¬ iscloseOne scale then v * scale else v

/-- Python 3 `round()`: round half to even. -/
def pyRound (q : ℚ) : Int :=
  let f := ⌊q⌋
  let r := q - (f : ℚ)
  if r < 1/2 then f
  else if r > 1/2 then f + 1
  else if f % 2 = 0 then f else f + 1

/-- Python `v & 0xFFFF` on an arbitrary-precision integer. -/
def mask16 (v : Int) : Nat := (v % 65536).toNat

/-! ### Byte/register packing (endianness permutations) -/

/-- `_reg_from_bytes`: `((b0 & 0xFF) << 8) | (b1 & 0xFF)`. -/
def _reg_from_bytes (b0 b1 : Nat) : Nat := (b0 % 256) * 256 + (b1 % 256)

/-- `_bytes_from_reg`: `((reg >> 8) & 0xFF, reg & 0xFF)`. -/
def _bytes_from_reg (reg : Nat) : Nat × Nat := (reg / 256 % 256, reg % 256)

/-- Big-endian byte quadruple A, B, C, D of a 32-bit pattern
(A most significant). -/
def bytesBE32 (u : Nat) : Nat × Nat × Nat × Nat :=
  (u / 16777216 % 256, u / 65536 % 256, u / 256 % 256, u % 256)

/-- `struct.pack(">i", v)`: two's-complement big-endian bytes; raises
`struct.error` outside `[-2^31, 2^31)`, modelled as `none`. -/
def i32BytesBE (v : Int) : Option (Nat × Nat × Nat × Nat) :=
  if v < -2147483648 ∨ 2147483648 ≤ v then none
  else some (bytesBE32 (v % 4294967296).toNat)

/-- `(order or "ABCD").upper()`. -/
def orderNorm (order : String) : String :=
  pyUpper (if order = "" then "ABCD" else order)

/-- The byte-to-register permutation shared by `pack_i32_to_regs` and
`pack_f32_to_regs`. -/
def permuteRegs (abcd : Nat × Nat × Nat × Nat) (order : String) : List Nat :=
  let A := abcd.1
  let B := abcd.2.1
  let C := abcd.2.2.1
  let D := abcd.2.2.2
  let o := orderNorm order
  if o = "ABCD" then [_reg_from_bytes A B, _reg_from_bytes C D]
  else if o = "CDAB" then [_reg_from_bytes C D, _reg_from_bytes A B]
  else if o = "BADC" then [_reg_from_bytes B A, _reg_from_bytes D C]
  else if o = "DCBA" then [_reg_from_bytes D C, _reg_from_bytes B A]
  else [_reg_from_bytes A B, _reg_from_bytes C D]

/-- `pack_i32_to_regs` from modbus_portal_cli.py. -/
def pack_i32_to_regs (value : Int) (order : String) : Option (List Nat) :=
  (i32BytesBE value).map fun abcd => permuteRegs abcd order

/-- `pack_f32_to_regs` from modbus_portal_cli.py, on the 32-bit IEEE-754
pattern produced by `struct.pack(">f", value)` (the conversion itself is
the caller's `f32pat` parameter; this function contributes the byte
permutation). -/
def pack_f32_to_regs (pattern : Nat) (order : String) : List Nat :=
  permuteRegs (bytesBE32 pattern) order

/-- The inverse permutation shared by `unpack_i32_from_regs` and
`unpack_f32_from_regs`: reconstruct the canonical big-endian pattern from
the first two registers; `None` when fewer than two registers are given. -/
def unpermutePattern (regs : List Nat) (order : String) : Option Nat :=
  match regs with
  | r0 :: r1 :: _ =>
    let ab := _bytes_from_reg r0
    let cd := _bytes_from_reg r1
    let o := orderNorm order
    let abcd :=
      if o = "ABCD" then (ab.1, ab.2, cd.1, cd.2)
      else if o = "CDAB" then (cd.1, cd.2, ab.1, ab.2)
      else if o = "BADC" then (ab.2, ab.1, cd.2, cd.1)
      else if o = "DCBA" then (cd.2, cd.1, ab.2, ab.1)
      else (ab.1, ab.2, cd.1, cd.2)
    some (abcd.1 * 16777216 + abcd.2.1 * 65536 + abcd.2.2.1 * 256 + abcd.2.2.2)
  | _ => none

/-- `unpack_i32_from_regs` from modbus_portal_cli.py:
`struct.unpack(">i", bytes([A,B,C,D]))` reinterprets the canonical pattern
as a signed 32-bit integer. -/
def unpack_i32_from_regs (regs : List Nat) (order : String) : Option Int :=
  (unpermutePattern regs order).map fun (u : Nat) =>
    if 2147483648 ≤ u then ((u : Int)) - 4294967296 else ((u : Int))

/-- `unpack_f32_from_regs` from modbus_portal_cli.py, returning the
reconstructed 32-bit IEEE-754 pattern (the final `struct.unpack(">f", ·)`
conversion is the caller's `f32val` parameter). -/
def unpack_f32_from_regs (regs : List Nat) (order : String) : Option Nat :=
  unpermutePattern regs order

/-! ### build_registers / decode_registers -/

/-- The sequential token loop of `build_registers`: registers of all tokens
concatenated in order; the first failing token (a `float()` or
`struct.pack` exception in Python) fails the whole call. -/
def optMap (f : String → Option (List Nat)) : List String → Option (List Nat)
  | [] => some []
  | p :: ps =>
    match f p with
    | none => none
    | some l => (optMap f ps).map fun rest => l ++ rest

/-- `build_registers` from modbus_portal_cli.py.  `f32pat` is the IEEE-754
single-precision conversion done by `struct.pack(">f", ·)` (value to 32-bit
pattern), kept abstract.  A `none` result models the Python call raising
(`ValueError` from `float()`, or `struct.error` from out-of-range
`pack(">i")`). -/
def build_registers (f32pat : ℚ → Nat) (value_text : String) (datatype : String)
    (endianness : String) (scale : ℚ) : Option (List Nat) :=
  let parts := splitTokens value_text
  let dt := pyLower (if datatype = "" then "int16" else datatype)
  let ps := if parts = [] then ["0"] else parts
  if dt = "int16" ∨ dt = "uint16" then
    optMap (fun p => (_to_num p).map fun x =>
      let v := pyRound (_apply_scale_write x scale)
      let v2 := if dt = "uint16" then v % 65536 else v
      [mask16 v2]) ps
  else if dt = "int32" then
    optMap (fun p => (_to_num p).bind fun x =>
      pack_i32_to_regs (pyRound (_apply_scale_write x scale)) endianness) ps
  else if dt = "float32" then
    optMap (fun p => (_to_num p).map fun x =>
      pack_f32_to_regs (f32pat (_apply_scale_write x scale)) endianness) ps
  else
    optMap (fun p => (_to_num p).map fun x =>
      [mask16 (pyRound (_apply_scale_write x scale))]) ps

/-- Result shape of `decode_registers`: Python `None`, a scalar, or a list. -/
inductive DecodeResult where
  | none
  | scalar (v : ℚ)
  | list (vs : List ℚ)
deriving DecidableEq, Repr

/-- The stride-2 pair iteration of the 32-bit decode branches: registers are
consumed two at a time and a trailing odd register is dropped. -/
def i32chunks : List Nat → List (Nat × Nat)
  | r0 :: r1 :: rest => (r0, r1) :: i32chunks rest
  | _ => []

/-- The `vals` list computed by `decode_registers` per datatype branch
(`int16` sign reinterpretation; `uint16` masking; 32-bit pairwise
unpacking; the final branch is the unrecognized-datatype default, identical
to `uint16`). -/
def decodedVals (f32val : Nat → ℚ) (registers : List Nat) (datatype : String)
    (endianness : String) (scale : ℚ) : List ℚ :=
  let dt := pyLower (if datatype = "" then "int16" else datatype)
  if dt = "int16" then
    registers.map fun (r : Nat) =>
      _apply_scale_read (if r < 32768 then ((r : Nat) : ℚ) else ((r : Nat) : ℚ) - 65536) scale
  else if dt = "uint16" then
    registers.map fun r => _apply_scale_read ((r % 65536 : Nat) : ℚ) scale
  else if dt = "int32" then
    (i32chunks registers).filterMap fun c =>
      (unpack_i32_from_regs [c.1, c.2] endianness).map fun (v : Int) =>
        _apply_scale_read ((v : ℚ)) scale
  else if dt = "float32" then
    (i32chunks registers).filterMap fun c =>
      (unpack_f32_from_regs [c.1, c.2] endianness).map fun pat =>
        _apply_scale_read (f32val pat) scale
  else
    registers.map fun r => _apply_scale_read ((r % 65536 : Nat) : ℚ) scale

/-- `decode_registers` from modbus_portal_cli.py.  `f32val` is the IEEE-754
single-precision conversion done by `struct.unpack(">f", ·)` (32-bit
pattern to value), kept abstract.  The `filterMap` `none` case in
`decodedVals` corresponds to the source's dead `continue` guard (a full
pair never unpacks to `None`); `vals[0] if len(vals) == 1 else vals` is the
final match. -/
def decode_registers (f32val : Nat → ℚ) (registers : List Nat) (datatype : String)
    (endianness : String) (scale : ℚ) : DecodeResult :=
  if registers = [] then .none
  else
    match decodedVals f32val registers datatype endianness scale with
    | [v] => .scalar v
    | vs => .list vs

/-! ### Row executor (`perform_row`) -/

/-- The outcome of a Python call that may raise: a value, or an exception
with its type name and message. -/
inductive PyResult (α : Type) where
  | ok (a : α)
  | exn (kind : String) (msg : String)
deriving DecidableEq, Repr

/-- A pymodbus response as the executor consumes it: `isError()`, `str(rr)`,
`.bits`, `.registers`. -/
structure MResp where
  isErr : Bool
  errStr : String
  bits : List Bool
  registers : List Nat
deriving DecidableEq, Repr

/-- The behavior of one `ModbusTcpClient` handle, as an oracle over the call
surface `perform_row` uses.  Each call may raise (`PyResult.exn`). -/
structure ClientOps where
  connect : PyResult Bool
  read_coils : Nat → Nat → Int → PyResult MResp
  write_coil : Nat → Bool → Int → PyResult MResp
  write_coils : Nat → List Bool → Int → PyResult MResp
  read_discrete_inputs : Nat → Nat → Int → PyResult MResp
  read_holding_registers : Nat → Nat → Int → PyResult MResp
  write_register : Nat → Nat → Int → PyResult MResp
  write_registers : Nat → List Nat → Int → PyResult MResp
  read_input_registers : Nat → Nat → Int → PyResult MResp

/-- A value stored under `result["value"]`: a single bit, a bit list, a
decoded register value, or the echoed value text of a register write. -/
inductive RValue where
  | b (x : Bool)
  | bits (xs : List Bool)
  | dec (d : DecodeResult)
  | text (s : String)
deriving DecidableEq, Repr

/-- The result dict of `perform_row` (absent keys are `none`). -/
structure RowResult where
  ok : Bool
  error : Option String
  value : Option RValue
  registers : Option (List Nat)
deriving DecidableEq, Repr

/-- A mapping row, with the step-2 field coercions (`str()`, `int()`,
`float()` of the loosely-typed dict values) taken as already performed;
`rw` is extracted by the source but never used afterwards. -/
structure Row where
  ip : String
  unit_id : Int
  function : String
  address : Nat
  count : Int
  datatype : String
  rw : String
  scale : ℚ
  endianness : String
  value : String

/-- The connection-cache key `(host, port, timeout)`. -/
abbrev CacheKey := String × Nat × ℚ

/-- The `clients` dict, as an association list (newest binding first). -/
abbrev Cache := List (CacheKey × Nat)

/-- `clients.get(key)`. -/
def cacheGet (c : Cache) (k : CacheKey) : Option Nat :=
  match c with
  | [] => none
  | (k', v) :: rest => if k' = k then some v else cacheGet rest k

/-- The function-dispatch section of `perform_row` (the body of its `try`
block).  Client calls go through `ops`; a `PyResult.exn` result models the
call raising.  A `none` from `build_registers` is the corresponding Python
exception (`ValueError`/`struct.error`) surfacing inside the `try` block. -/
def dispatchRow (ops : ClientOps) (f32pat : ℚ → Nat) (f32val : Nat → ℚ)
    (fn : String) (addr : Nat) (countN : Nat) (unit : Int) (dtype : String)
    (endv : String) (scale : ℚ) (value_text : String) (dry : Bool) :
    PyResult RowResult :=
  if fn ∈ ["read_coils", "read coil", "read_coil"] then
    match ops.read_coils addr countN unit with
    | .exn k m => .exn k m
    | .ok rr =>
      if rr.isErr then .ok ⟨false, some rr.errStr, none, none⟩
      else
        let bits := rr.bits.take countN
        .ok ⟨true, none, some (match bits with | [b] => RValue.b b | _ => RValue.bits bits), none⟩
  else if fn ∈ ["write_single", "write_single_coil", "write coil", "write_coil"] then
    let bit := decide (pyLower (pyStrip value_text) ∈ (["1", "true", "on", "yes"] : List String))
    if dry then .ok ⟨true, none, some (RValue.b bit), none⟩
    else
      match ops.write_coil addr bit unit with
      | .exn k m => .exn k m
      | .ok wr =>
        .ok ⟨!wr.isErr, if wr.isErr then some wr.errStr else none, some (RValue.b bit), none⟩
  else if fn ∈ ["write_multi", "write_multiple_coils", "write coils", "write_coils"] then
    let bits0 := (splitTokens value_text).map fun p =>
      decide (pyLower (pyStrip p) ∈ (["1", "true", "on", "yes"] : List String))
    let bits := if bits0 = [] then [false] else bits0
    if dry then .ok ⟨true, none, some (RValue.bits bits), none⟩
    else
      match ops.write_coils addr bits unit with
      | .exn k m => .exn k m
      | .ok wr =>
        .ok ⟨!wr.isErr, if wr.isErr then some wr.errStr else none, some (RValue.bits bits), none⟩
  else if fn ∈ ["read_discrete", "read_discrete_inputs", "read di", "read_discrete_input"] then
    match ops.read_discrete_inputs addr countN unit with
    | .exn k m => .exn k m
    | .ok rr =>
      if rr.isErr then .ok ⟨false, some rr.errStr, none, none⟩
      else
        let bits := rr.bits.take countN
        .ok ⟨true, none, some (match bits with | [b] => RValue.b b | _ => RValue.bits bits), none⟩
  else if fn ∈ ["read_holding", "read_holding_registers", "read hr"] then
    match ops.read_holding_registers addr countN unit with
    | .exn k m => .exn k m
    | .ok rr =>
      if rr.isErr then .ok ⟨false, some rr.errStr, none, none⟩
      else
        let regs := rr.registers.take countN
        .ok ⟨true, none, some (RValue.dec (decode_registers f32val regs dtype endv scale)), some regs⟩
  else if fn ∈ ["write_single_register", "write_single_reg", "write single reg", "write_register"] then
    match build_registers f32pat value_text dtype endv scale with
    | none => .exn "ValueError" ("could not encode value: " ++ value_text)
    | some regs0 =>
      let regs := if regs0 = [] then [0] else regs0
      if dry then .ok ⟨true, none, some (RValue.text value_text), some (regs.take 1)⟩
      else
        match ops.write_register addr (regs.headD 0 % 65536) unit with
        | .exn k m => .exn k m
        | .ok wr =>
          .ok ⟨!wr.isErr, if wr.isErr then some wr.errStr else none,
               some (RValue.text value_text), some (regs.take 1)⟩
  else if fn ∈ ["write_multi_registers", "write_multiple_registers", "write regs", "write_regs"] then
    match build_registers f32pat value_text dtype endv scale with
    | none => .exn "ValueError" ("could not encode value: " ++ value_text)
    | some regs0 =>
      let regs := if regs0 = [] then [0] else regs0
      if dry then .ok ⟨true, none, some (RValue.text value_text), some regs⟩
      else
        match ops.write_registers addr regs unit with
        | .exn k m => .exn k m
        | .ok wr =>
          .ok ⟨!wr.isErr, if wr.isErr then some wr.errStr else none,
               some (RValue.text value_text), some regs⟩
  else if fn ∈ ["read_input", "read_input_registers", "read ir"] then
    match ops.read_input_registers addr countN unit with
    | .exn k m => .exn k m
    | .ok rr =>
      if rr.isErr then .ok ⟨false, some rr.errStr, none, none⟩
      else
        let regs := rr.registers.take countN
        .ok ⟨true, none, some (RValue.dec (decode_registers f32val regs dtype endv scale)), some regs⟩
  else
    .ok ⟨false, some ("unsupported function: " ++ fn), none, none⟩

/-- The normalized unit id: `int(row.get("unit_id", 1) or 1)` (a falsy 0
becomes 1). -/
def normUnitId (u : Int) : Int := if u = 0 then 1 else u

/-- The normalized read count: `int(row.get("count", 1) or 1)` followed by
`if count <= 0: count = 1`. -/
def normCount (c : Int) : Nat :=
  let c0 := if c = 0 then 1 else c
  if c0 ≤ 0 then 1 else c0.toNat

/-- The normalized scale: `float(row.get("scale", 1.0) or 1.0)` (a falsy 0
becomes 1.0). -/
def normScale (s : ℚ) : ℚ := if s = 0 then 1 else s

/-- The connection-cache key of a row: host and port parsed from the
stripped ip text (default host 127.0.0.1 when blank, default port 502),
paired with the timeout. -/
def rowKey (row : Row) (timeout : ℚ) : CacheKey :=
  let raw_ip := pyStrip row.ip
  let hp := parse_host_port (if raw_ip = "" then "127.0.0.1" else raw_ip) 502
  (hp.1, hp.2, timeout)

/-- The client-acquisition step: `client = clients.get(key)` and, on a
miss, `client = ModbusTcpClient(...)`; `clients[key] = client` — note the
new handle is inserted into the cache unconditionally, before any connect
attempt. -/
def acquireClient (clients : Cache) (key : CacheKey) (freshId : Nat) : Nat × Cache :=
  match cacheGet clients key with
  | some c => (c, clients)
  | none => (freshId, (key, freshId) :: clients)

/-- `perform_row` from modbus_portal_cli.py.  `env` maps client-handle ids
to their call behavior; `freshId` is the id of the `ModbusTcpClient` the
call would construct for a cache miss (construction itself is not modelled
as raising).  The cache is updated before `connect()` is attempted,
mirroring `clients[key] = client`.  The `try` block spans only the
function dispatch: a `connect()` exception is returned as `PyResult.exn`
(it propagates to the caller), while `connect()` returning `False` yields
the connect-failed result. -/
def perform_row (env : Nat → ClientOps) (freshId : Nat) (f32pat : ℚ → Nat)
    (f32val : Nat → ℚ) (row : Row) (clients : Cache) (timeout : ℚ)
    (dry : Bool) : PyResult RowResult × Cache :=
  let key := rowKey row timeout
  let acquired := acquireClient clients key freshId
  let cid := acquired.1
  let clients' := acquired.2
  match (env cid).connect with
  | .exn k m => (.exn k m, clients')
  | .ok false =>
    (.ok ⟨false, some ("connect failed: " ++ key.1 ++ ":" ++ toString key.2.1), none, none⟩,
     clients')
  | .ok true =>
    match dispatchRow (env cid) f32pat f32val (pyLower (pyStrip row.function)) row.address
        (normCount row.count) (normUnitId row.unit_id) (pyLower row.datatype) row.endianness
        (normScale row.scale) row.value dry with
    | .exn k m => (.ok ⟨false, some (k ++ ": " ++ m), none, none⟩, clients')
    | .ok r => (.ok r, clients')

/-! ### Shared lemmas -/

theorem iscloseOne_one : iscloseOne 1 = true := by
  simp [iscloseOne]

theorem _apply_scale_write_noop (v s : ℚ) (h : s = 0 ∨ iscloseOne s = true) :
    _apply_scale_write v s = v := by
  unfold _apply_scale_write
  rcases h with h | h
  · simp [h]
  · simp [h]

theorem _apply_scale_read_noop (v s : ℚ) (h : s = 0 ∨ iscloseOne s = true) :
    _apply_scale_read v s = v := by
  unfold _apply_scale_read
  rcases h with h | h
  · simp [h]
  · simp [h]

theorem _apply_scale_write_div (v s : ℚ) (h0 : s ≠ 0) (h1 : iscloseOne s = false) :
    _apply_scale_write v s = v / s := by
  have hs1 : s ≠ 1 := by
    rintro rfl
    rw [iscloseOne_one] at h1
    cases h1
  unfold _apply_scale_write
  rw [if_pos ⟨h0, hs1, by simp [h1]⟩]

theorem _apply_scale_read_mul (v s : ℚ) (h0 : s ≠ 0) (h1 : iscloseOne s = false) :
    _apply_scale_read v s = v * s := by
  have hs1 : s ≠ 1 := by
    rintro rfl
    rw [iscloseOne_one] at h1
    cases h1
  unfold _apply_scale_read
  rw [if_pos ⟨h0, hs1, by simp [h1]⟩]

theorem _apply_scale_write_one (v : ℚ) : _apply_scale_write v 1 = v :=
  _apply_scale_write_noop v 1 (Or.inr iscloseOne_one)

theorem _apply_scale_read_one (v : ℚ) : _apply_scale_read v 1 = v :=
  _apply_scale_read_noop v 1 (Or.inr iscloseOne_one)

theorem pyRound_intCast (n : ℤ) : pyRound ((n : ℚ)) = n := by
  unfold pyRound
  rw [Int.floor_intCast]
  norm_num

theorem mask16_lt (v : Int) : mask16 v < 65536 := by
  unfold mask16
  omega

theorem _reg_from_bytes_lt (a b : Nat) : _reg_from_bytes a b < 65536 := by
  unfold _reg_from_bytes
  omega

theorem bytes_from_reg_from_bytes (a b : Nat) (ha : a < 256) (hb : b < 256) :
    _bytes_from_reg (_reg_from_bytes a b) = (a, b) := by
  unfold _bytes_from_reg _reg_from_bytes
  simp only [Prod.mk.injEq]
  omega

/-- The four recognized byte/word order tokens. -/
def fourOrders : List String := ["ABCD", "BADC", "CDAB", "DCBA"]

/-! ### C8: parse_host_port -/

/-- C8: parse_host_port never raises (it is total by construction): the
empty string yields ("", default_port); "[::1]:1502" parses to
("::1", 1502); "10.0.0.5" parses to ("10.0.0.5", 502) with the default
port; and any nonempty input on which the host[:port] grammar fails falls
back to the whole trimmed string as host with the default port. -/
theorem parse_host_port_spec :
    (∀ d : Nat, parse_host_port "" d = ("", d)) ∧
    parse_host_port "[::1]:1502" 502 = ("::1", 1502) ∧
    parse_host_port "10.0.0.5" 502 = ("10.0.0.5", 502) ∧
    ∀ (s : String) (d : Nat), s ≠ "" → matchHostPort (stripC s.data) = none →
      parse_host_port s d = (pyStrip s, d) := by
  refine ⟨fun d => by simp [parse_host_port], by decide, by decide, ?_⟩
  intro s d hs hm
  unfold parse_host_port
  rw [if_neg hs, hm]

/-- Witness for C8 on a concrete malformed input. -/
theorem parse_host_port_spec_witness : parse_host_port "a:b:c" 7 = ("a:b:c", 7) := by
  have h := parse_host_port_spec.2.2.2 "a:b:c" 7 (by decide) (by decide)
  simpa [show pyStrip "a:b:c" = "a:b:c" from by decide] using h

/-! ### C2: the "bool" datatype in decode_registers -/

/-- C2 counterexample: decoding with datatype bool does not return a
truth value determined by the first register: registers [2] and [1] both
have a nonzero first register, yet decode to the distinct numeric scalars
2 and 1 (the claimed behavior would send both to true), and [0, 7] with a
zero first register decodes to the two-element numeric list [0, 7]. -/
theorem decode_bool_counterexample :
    decode_registers (fun _ => 0) [2] "bool" "ABCD" 1 = DecodeResult.scalar 2 ∧
    decode_registers (fun _ => 0) [1] "bool" "ABCD" 1 = DecodeResult.scalar 1 ∧
    decode_registers (fun _ => 0) [2] "bool" "ABCD" 1 ≠
      decode_registers (fun _ => 0) [1] "bool" "ABCD" 1 ∧
    decode_registers (fun _ => 0) [0, 7] "bool" "ABCD" 1 = DecodeResult.list [0, 7] := by
  refine ⟨by decide, by decide, by decide, by decide⟩

/-- C2 amended: "bool" is not a recognized datatype of decode_registers; it
takes the unrecognized-datatype path, which decodes exactly like uint16
(each register masked to 16 bits, scaled, with the usual scalar/list
collapsing); no boolean is produced. -/
theorem decode_bool_amended (f : Nat → ℚ) (regs : List Nat) (order : String) (scale : ℚ) :
    decode_registers f regs "bool" order scale =
      decode_registers f regs "uint16" order scale := by
  unfold decode_registers decodedVals
  rw [show pyLower (if ("bool" : String) = "" then "int16" else "bool") = "bool" from by decide,
    show pyLower (if ("uint16" : String) = "" then "int16" else "uint16") = "uint16" from by decide,
    if_neg (show ¬("bool" : String) = "int16" from by decide),
    if_neg (show ¬("bool" : String) = "uint16" from by decide),
    if_neg (show ¬("bool" : String) = "int32" from by decide),
    if_neg (show ¬("bool" : String) = "float32" from by decide),
    if_neg (show ¬("uint16" : String) = "int16" from by decide),
    if_pos (show ("uint16" : String) = "uint16" from rfl)]

/-! ### C5: shape of decode's result -/

/-- C5: decode of the empty register list is the distinguished no-value
result (Python None), and for any non-empty register list the result is a
bare scalar exactly when one decoded value results, and the ordered list of
decoded values otherwise (including the empty list when no complete value
results). -/
theorem decode_shape_spec (f : Nat → ℚ) (dt order : String) (scale : ℚ) :
    decode_registers f [] dt order scale = DecodeResult.none ∧
    ∀ regs : List Nat, regs ≠ [] →
      ((∃ v, decodedVals f regs dt order scale = [v] ∧
          decode_registers f regs dt order scale = DecodeResult.scalar v) ∨
       (decodedVals f regs dt order scale).length ≠ 1 ∧
         decode_registers f regs dt order scale =
           DecodeResult.list (decodedVals f regs dt order scale)) := by
  constructor
  · simp [decode_registers]
  · intro regs hr
    unfold decode_registers
    rw [if_neg hr]
    rcases hv : decodedVals f regs dt order scale with _ | ⟨v, _ | ⟨w, rest⟩⟩
    · exact Or.inr ⟨by simp, rfl⟩
    · exact Or.inl ⟨v, rfl, rfl⟩
    · exact Or.inr ⟨by simp, rfl⟩

/-- Witness for C5 at a concrete non-empty register list. -/
theorem decode_shape_spec_witness :
    decode_registers (fun _ => 0) [0, 7] "uint16" "ABCD" 1 =
      DecodeResult.list (decodedVals (fun _ => 0) [0, 7] "uint16" "ABCD" 1) := by
  rcases (decode_shape_spec (fun _ => 0) "uint16" "ABCD" 1).2 [0, 7] (by decide) with h | h
  · obtain ⟨v, hv, _⟩ := h
    have hlen : (decodedVals (fun _ => 0) [0, 7] "uint16" "ABCD" 1).length = 2 := by decide
    rw [hv] at hlen
    simp at hlen
  · exact h.2

/-! ### Permutation round-trip lemmas -/

theorem unpermute_permute (A B C D : Nat) (hA : A < 256) (hB : B < 256) (hC : C < 256)
    (hD : D < 256) (order : String) (ho : order ∈ fourOrders) :
    unpermutePattern (permuteRegs (A, B, C, D) order) order =
      some (A * 16777216 + B * 65536 + C * 256 + D) := by
  have h1 := bytes_from_reg_from_bytes A B hA hB
  have h2 := bytes_from_reg_from_bytes C D hC hD
  have h3 := bytes_from_reg_from_bytes B A hB hA
  have h4 := bytes_from_reg_from_bytes D C hD hC
  fin_cases ho
  · show some ((_bytes_from_reg (_reg_from_bytes A B)).1 * 16777216 +
        (_bytes_from_reg (_reg_from_bytes A B)).2 * 65536 +
        (_bytes_from_reg (_reg_from_bytes C D)).1 * 256 +
        (_bytes_from_reg (_reg_from_bytes C D)).2) = _
    rw [h1, h2]
  · show some ((_bytes_from_reg (_reg_from_bytes B A)).2 * 16777216 +
        (_bytes_from_reg (_reg_from_bytes B A)).1 * 65536 +
        (_bytes_from_reg (_reg_from_bytes D C)).2 * 256 +
        (_bytes_from_reg (_reg_from_bytes D C)).1) = _
    rw [h3, h4]
  · show some ((_bytes_from_reg (_reg_from_bytes A B)).1 * 16777216 +
        (_bytes_from_reg (_reg_from_bytes A B)).2 * 65536 +
        (_bytes_from_reg (_reg_from_bytes C D)).1 * 256 +
        (_bytes_from_reg (_reg_from_bytes C D)).2) = _
    rw [h1, h2]
  · show some ((_bytes_from_reg (_reg_from_bytes B A)).2 * 16777216 +
        (_bytes_from_reg (_reg_from_bytes B A)).1 * 65536 +
        (_bytes_from_reg (_reg_from_bytes D C)).2 * 256 +
        (_bytes_from_reg (_reg_from_bytes D C)).1) = _
    rw [h3, h4]

theorem permuteRegs_pair (abcd : Nat × Nat × Nat × Nat) (order : String) :
    ∃ a b : Nat, permuteRegs abcd order = [a, b] := by
  simp only [permuteRegs]
  split_ifs <;> exact ⟨_, _, rfl⟩

theorem unpack_pack_i32 (n : Int) (order : String) (hlo : -2147483648 ≤ n)
    (hhi : n < 2147483648) (ho : order ∈ fourOrders) :
    ∃ a b : Nat, pack_i32_to_regs n order = some [a, b] ∧
      unpack_i32_from_regs [a, b] order = some n := by
  have hnn : (0 : Int) ≤ n % 4294967296 := Int.emod_nonneg n (by norm_num)
  have hltI : n % 4294967296 < 4294967296 := Int.emod_lt_of_pos n (by norm_num)
  obtain ⟨a, b, hab⟩ := permuteRegs_pair (bytesBE32 (n % 4294967296).toNat) order
  refine ⟨a, b, ?_, ?_⟩
  · rw [← hab]
    unfold pack_i32_to_regs i32BytesBE
    rw [if_neg (by omega)]
    rfl
  · rw [← hab]
    have hperm := unpermute_permute ((n % 4294967296).toNat / 16777216 % 256)
      ((n % 4294967296).toNat / 65536 % 256) ((n % 4294967296).toNat / 256 % 256)
      ((n % 4294967296).toNat % 256) (Nat.mod_lt _ (by norm_num)) (Nat.mod_lt _ (by norm_num))
      (Nat.mod_lt _ (by norm_num)) (Nat.mod_lt _ (by norm_num)) order ho
    unfold unpack_i32_from_regs
    rw [show bytesBE32 (n % 4294967296).toNat =
        ((n % 4294967296).toNat / 16777216 % 256, (n % 4294967296).toNat / 65536 % 256,
         (n % 4294967296).toNat / 256 % 256, (n % 4294967296).toNat % 256) from rfl, hperm]
    simp only [Option.map_some']
    congr 1
    split_ifs <;> omega

theorem unpack_pack_f32 (p : Nat) (order : String) (hp : p < 4294967296)
    (ho : order ∈ fourOrders) :
    ∃ a b : Nat, pack_f32_to_regs p order = [a, b] ∧
      unpack_f32_from_regs [a, b] order = some p := by
  obtain ⟨a, b, hab⟩ := permuteRegs_pair (bytesBE32 p) order
  refine ⟨a, b, ?_, ?_⟩
  · rw [← hab]
    rfl
  · rw [show [a, b] = pack_f32_to_regs p order from by rw [← hab]; rfl]
    have hperm := unpermute_permute (p / 16777216 % 256) (p / 65536 % 256) (p / 256 % 256)
      (p % 256) (Nat.mod_lt _ (by norm_num)) (Nat.mod_lt _ (by norm_num))
      (Nat.mod_lt _ (by norm_num)) (Nat.mod_lt _ (by norm_num)) order ho
    unfold unpack_f32_from_regs pack_f32_to_regs
    rw [show bytesBE32 p = (p / 16777216 % 256, p / 65536 % 256, p / 256 % 256, p % 256) from rfl,
      hperm]
    congr 1
    omega

/-! ### Single-token evaluations of build_registers -/

theorem build_single_i16 (f32 : ℚ → Nat) (vt t order : String) (x scale : ℚ)
    (h1 : splitTokens vt = [t]) (h2 : _to_num t = some x) :
    build_registers f32 vt "int16" order scale =
      some [mask16 (pyRound (_apply_scale_write x scale))] := by
  simp only [build_registers, h1,
    show pyLower (if ("int16" : String) = "" then "int16" else "int16") = "int16" from by decide]
  simp [optMap, h2, show ¬("int16" : String) = "uint16" from by decide]

theorem build_single_u16 (f32 : ℚ → Nat) (vt t order : String) (x scale : ℚ)
    (h1 : splitTokens vt = [t]) (h2 : _to_num t = some x) :
    build_registers f32 vt "uint16" order scale =
      some [mask16 (pyRound (_apply_scale_write x scale) % 65536)] := by
  simp only [build_registers, h1,
    show pyLower (if ("uint16" : String) = "" then "int16" else "uint16") = "uint16" from by decide]
  simp [optMap, h2, show ¬("uint16" : String) = "int16" from by decide]

theorem build_single_i32 (f32 : ℚ → Nat) (vt t order : String) (x scale : ℚ)
    (h1 : splitTokens vt = [t]) (h2 : _to_num t = some x) :
    build_registers f32 vt "int32" order scale =
      pack_i32_to_regs (pyRound (_apply_scale_write x scale)) order := by
  simp only [build_registers, h1,
    show pyLower (if ("int32" : String) = "" then "int16" else "int32") = "int32" from by decide]
  rcases hpk : pack_i32_to_regs (pyRound (_apply_scale_write x scale)) order with _ | l
  · simp [optMap, h2, hpk, show ¬("int32" : String) = "int16" from by decide,
      show ¬("int32" : String) = "uint16" from by decide]
  · simp [optMap, h2, hpk, show ¬("int32" : String) = "int16" from by decide,
      show ¬("int32" : String) = "uint16" from by decide]

theorem build_single_f32 (f32 : ℚ → Nat) (vt t order : String) (x scale : ℚ)
    (h1 : splitTokens vt = [t]) (h2 : _to_num t = some x) :
    build_registers f32 vt "float32" order scale =
      some (pack_f32_to_regs (f32 (_apply_scale_write x scale)) order) := by
  simp only [build_registers, h1,
    show pyLower (if ("float32" : String) = "" then "int16" else "float32") = "float32" from
      by decide]
  simp [optMap, h2, show ¬("float32" : String) = "int16" from by decide,
    show ¬("float32" : String) = "uint16" from by decide,
    show ¬("float32" : String) = "int32" from by decide]

theorem _reg_from_bytes_eq (a b : Nat) (ha : a < 256) (hb : b < 256) :
    _reg_from_bytes a b = a * 256 + b := by
  unfold _reg_from_bytes
  omega

/-! ### C4: int32 encoding layout -/

/-- C4: for every 32-bit signed integer value, int32 encoding emits two
16-bit registers obtained by redistributing the canonical big-endian bytes
A B C D of the value (characterized arithmetically: each byte is below 256
and A*2^24 + B*2^16 + C*2^8 + D is the value's two's-complement 32-bit
pattern) according to the normalized order token ((order or "ABCD").upper()):
ABCD gives [A*256+B, C*256+D], CDAB gives [C*256+D, A*256+B], BADC gives
[B*256+A, D*256+C], DCBA gives [D*256+C, B*256+A], and any token outside
these four gives the ABCD arrangement; moreover a single-token int32 encode
first rounds the scaled value and then packs exactly that integer. -/
theorem pack_i32_spec (n : Int) (order : String) (hlo : -2147483648 ≤ n)
    (hhi : n < 2147483648) :
    ∃ A B C D : Nat, A < 256 ∧ B < 256 ∧ C < 256 ∧ D < 256 ∧
      ((A * 16777216 + B * 65536 + C * 256 + D : Nat) : Int) = n % 4294967296 ∧
      (orderNorm order = "ABCD" →
        pack_i32_to_regs n order = some [A * 256 + B, C * 256 + D]) ∧
      (orderNorm order = "CDAB" →
        pack_i32_to_regs n order = some [C * 256 + D, A * 256 + B]) ∧
      (orderNorm order = "BADC" →
        pack_i32_to_regs n order = some [B * 256 + A, D * 256 + C]) ∧
      (orderNorm order = "DCBA" →
        pack_i32_to_regs n order = some [D * 256 + C, B * 256 + A]) ∧
      (orderNorm order ∉ fourOrders →
        pack_i32_to_regs n order = some [A * 256 + B, C * 256 + D]) ∧
      ∀ (f32 : ℚ → Nat) (vt t : String) (x scale : ℚ),
        splitTokens vt = [t] → _to_num t = some x →
        pyRound (_apply_scale_write x scale) = n →
        build_registers f32 vt "int32" order scale = pack_i32_to_regs n order := by
  have hnn : (0 : Int) ≤ n % 4294967296 := Int.emod_nonneg n (by norm_num)
  have hltI : n % 4294967296 < 4294967296 := Int.emod_lt_of_pos n (by norm_num)
  have hult : (n % 4294967296).toNat < 4294967296 := by omega
  have hpack : pack_i32_to_regs n order =
      some (permuteRegs (bytesBE32 (n % 4294967296).toNat) order) := by
    unfold pack_i32_to_regs i32BytesBE
    rw [if_neg (by omega)]
    rfl
  have hbytes : bytesBE32 (n % 4294967296).toNat =
      ((n % 4294967296).toNat / 16777216 % 256, (n % 4294967296).toNat / 65536 % 256,
       (n % 4294967296).toNat / 256 % 256, (n % 4294967296).toNat % 256) := rfl
  refine ⟨(n % 4294967296).toNat / 16777216 % 256, (n % 4294967296).toNat / 65536 % 256,
    (n % 4294967296).toNat / 256 % 256, (n % 4294967296).toNat % 256,
    Nat.mod_lt _ (by norm_num), Nat.mod_lt _ (by norm_num), Nat.mod_lt _ (by norm_num),
    Nat.mod_lt _ (by norm_num), ?_, ?_, ?_, ?_, ?_, ?_, ?_⟩
  · omega
  · intro hOrd
    rw [hpack, hbytes]
    simp only [permuteRegs, hOrd, if_true]
    rw [_reg_from_bytes_eq _ _ (Nat.mod_lt _ (by norm_num)) (Nat.mod_lt _ (by norm_num)),
      _reg_from_bytes_eq _ _ (Nat.mod_lt _ (by norm_num)) (Nat.mod_lt _ (by norm_num))]
  · intro hOrd
    rw [hpack, hbytes]
    simp only [permuteRegs, hOrd, if_true,
      show (("CDAB" : String) = "ABCD") = False from by decide, if_false]
    rw [_reg_from_bytes_eq _ _ (Nat.mod_lt _ (by norm_num)) (Nat.mod_lt _ (by norm_num)),
      _reg_from_bytes_eq _ _ (Nat.mod_lt _ (by norm_num)) (Nat.mod_lt _ (by norm_num))]
  · intro hOrd
    rw [hpack, hbytes]
    simp only [permuteRegs, hOrd, if_true,
      show (("BADC" : String) = "ABCD") = False from by decide,
      show (("BADC" : String) = "CDAB") = False from by decide, if_false]
    rw [_reg_from_bytes_eq _ _ (Nat.mod_lt _ (by norm_num)) (Nat.mod_lt _ (by norm_num)),
      _reg_from_bytes_eq _ _ (Nat.mod_lt _ (by norm_num)) (Nat.mod_lt _ (by norm_num))]
  · intro hOrd
    rw [hpack, hbytes]
    simp only [permuteRegs, hOrd, if_true,
      show (("DCBA" : String) = "ABCD") = False from by decide,
      show (("DCBA" : String) = "CDAB") = False from by decide,
      show (("DCBA" : String) = "BADC") = False from by decide, if_false]
    rw [_reg_from_bytes_eq _ _ (Nat.mod_lt _ (by norm_num)) (Nat.mod_lt _ (by norm_num)),
      _reg_from_bytes_eq _ _ (Nat.mod_lt _ (by norm_num)) (Nat.mod_lt _ (by norm_num))]
  · intro hOrd
    have h1 : ¬ orderNorm order = "ABCD" := fun h => hOrd (by rw [h]; decide)
    have h2 : ¬ orderNorm order = "CDAB" := fun h => hOrd (by rw [h]; decide)
    have h3 : ¬ orderNorm order = "BADC" := fun h => hOrd (by rw [h]; decide)
    have h4 : ¬ orderNorm order = "DCBA" := fun h => hOrd (by rw [h]; decide)
    rw [hpack, hbytes]
    simp only [permuteRegs]
    rw [if_neg h1, if_neg h2, if_neg h3, if_neg h4,
      _reg_from_bytes_eq _ _ (Nat.mod_lt _ (by norm_num)) (Nat.mod_lt _ (by norm_num)),
      _reg_from_bytes_eq _ _ (Nat.mod_lt _ (by norm_num)) (Nat.mod_lt _ (by norm_num))]
  · intro f32 vt t x scale hs hn hr
    rw [build_single_i32 f32 vt t order x scale hs hn, hr]

/-- Witness for C4 at value 1 and the unrecognized order token "xyz". -/
theorem pack_i32_spec_witness : pack_i32_to_regs 1 "xyz" = some [0, 1] := by
  obtain ⟨A, B, C, D, hA, hB, hC, hD, hw, _, _, _, _, hdef, _⟩ :=
    pack_i32_spec 1 "xyz" (by norm_num) (by norm_num)
  have h := hdef (by decide)
  have hv : A = 0 ∧ B = 0 ∧ C = 0 ∧ D = 1 := by omega
  rw [hv.1, hv.2.1, hv.2.2.1, hv.2.2.2] at h
  simpa using h

/-! ### C10: register range invariant of build_registers -/

theorem optMap_mem {f : String → Option (List Nat)} :
    ∀ {ps : List String} {ls : List Nat}, optMap f ps = some ls →
      ∀ r ∈ ls, ∃ p ∈ ps, ∃ l, f p = some l ∧ r ∈ l := by
  intro ps
  induction ps with
  | nil =>
    intro ls h r hr
    simp only [optMap] at h
    injection h with h
    subst h
    simp at hr
  | cons p ps ih =>
    intro ls h r hr
    simp only [optMap] at h
    rcases hf : f p with _ | l
    · rw [hf] at h
      cases h
    · rw [hf] at h
      rcases hrest : optMap f ps with _ | rest
      · rw [hrest] at h
        cases h
      · rw [hrest] at h
        simp only [Option.map_some'] at h
        injection h with h
        rw [← h] at hr
        rcases List.mem_append.mp hr with hl | hr2
        · exact ⟨p, by simp, l, hf, hl⟩
        · obtain ⟨p', hp', l', hfl', hrl'⟩ := ih hrest r hr2
          exact ⟨p', by simp [hp'], l', hfl', hrl'⟩

theorem permuteRegs_mem_lt (abcd : Nat × Nat × Nat × Nat) (order : String) :
    ∀ r ∈ permuteRegs abcd order, r < 65536 := by
  intro r hr
  simp only [permuteRegs] at hr
  split_ifs at hr <;> simp at hr <;>
    rcases hr with rfl | rfl <;> exact _reg_from_bytes_lt _ _

theorem pack_i32_mem_lt (n : Int) (order : String) (l : List Nat)
    (h : pack_i32_to_regs n order = some l) : ∀ r ∈ l, r < 65536 := by
  unfold pack_i32_to_regs at h
  rcases hb : i32BytesBE n with _ | abcd
  · rw [hb] at h
    cases h
  · rw [hb] at h
    simp only [Option.map_some'] at h
    injection h with h
    rw [← h]
    exact permuteRegs_mem_lt abcd order

/-- C10: every register emitted by a successful build_registers lies in
0..65535, for all datatypes (including unrecognized datatype names, which
encode along the uint16 default path), all order tokens, all scales, and
any float32 bit-pattern conversion function. -/
theorem build_registers_range (f32 : ℚ → Nat) (vt dt order : String) (scale : ℚ)
    (regs : List Nat) (h : build_registers f32 vt dt order scale = some regs) :
    ∀ r ∈ regs, r < 65536 := by
  intro r hr
  simp only [build_registers] at h
  generalize (if splitTokens vt = [] then ["0"] else splitTokens vt) = ps at h
  generalize pyLower (if dt = "" then "int16" else dt) = dtL at h
  split_ifs at h
  · obtain ⟨p, _, l, hfl, hrl⟩ := optMap_mem h r hr
    rcases hn : _to_num p with _ | x
    · rw [hn] at hfl
      cases hfl
    · rw [hn] at hfl
      rw [← Option.some.inj hfl] at hrl
      simp at hrl
      rw [hrl]
      exact mask16_lt _
  · obtain ⟨p, _, l, hfl, hrl⟩ := optMap_mem h r hr
    rcases hn : _to_num p with _ | x
    · rw [hn] at hfl
      cases hfl
    · rw [hn] at hfl
      rw [← Option.some.inj hfl] at hrl
      simp at hrl
      rw [hrl]
      exact mask16_lt _
  · obtain ⟨p, _, l, hfl, hrl⟩ := optMap_mem h r hr
    rcases hn : _to_num p with _ | x
    · rw [hn] at hfl
      cases hfl
    · rw [hn] at hfl
      exact pack_i32_mem_lt _ _ _ hfl r hrl
  · obtain ⟨p, _, l, hfl, hrl⟩ := optMap_mem h r hr
    rcases hn : _to_num p with _ | x
    · rw [hn] at hfl
      cases hfl
    · rw [hn] at hfl
      rw [← Option.some.inj hfl] at hrl
      exact permuteRegs_mem_lt _ _ r hrl
  · obtain ⟨p, _, l, hfl, hrl⟩ := optMap_mem h r hr
    rcases hn : _to_num p with _ | x
    · rw [hn] at hfl
      cases hfl
    · rw [hn] at hfl
      rw [← Option.some.inj hfl] at hrl
      simp at hrl
      rw [hrl]
      exact mask16_lt _

/-- Witness for C10 on a concrete successful encode. -/
theorem build_registers_range_witness : (1 : Nat) < 65536 := by
  have hb : build_registers (fun _ => 0) "on" "int32" "CDAB" 1 = some [1, 0] := by
    rw [build_single_i32 (fun _ => 0) "on" "on" "CDAB" 1 1 (by decide) rfl,
      _apply_scale_write_one, show pyRound 1 = 1 from by simpa using pyRound_intCast 1]
    decide
  exact build_registers_range (fun _ => 0) "on" "int32" "CDAB" 1 [1, 0] hb 1 (by decide)

/-! ### Decode evaluations on single registers and pairs -/

theorem decode_single_int16 (f : Nat → ℚ) (r : Nat) (order : String) (scale : ℚ) :
    decode_registers f [r] "int16" order scale =
      DecodeResult.scalar
        (_apply_scale_read (if r < 32768 then ((r : Nat) : ℚ) else ((r : Nat) : ℚ) - 65536)
          scale) := by
  have hdv : decodedVals f [r] "int16" order scale =
      [_apply_scale_read (if r < 32768 then ((r : Nat) : ℚ) else ((r : Nat) : ℚ) - 65536)
        scale] := by
    unfold decodedVals
    rw [show pyLower (if ("int16" : String) = "" then "int16" else "int16") = "int16" from
      by decide, if_pos rfl]
    rfl
  unfold decode_registers
  rw [if_neg (by simp), hdv]

theorem decode_single_uint16 (f : Nat → ℚ) (r : Nat) (order : String) (scale : ℚ) :
    decode_registers f [r] "uint16" order scale =
      DecodeResult.scalar (_apply_scale_read (((r % 65536 : Nat)) : ℚ) scale) := by
  have hdv : decodedVals f [r] "uint16" order scale =
      [_apply_scale_read (((r % 65536 : Nat)) : ℚ) scale] := by
    unfold decodedVals
    rw [show pyLower (if ("uint16" : String) = "" then "int16" else "uint16") = "uint16" from
      by decide, if_neg (by decide), if_pos rfl]
    rfl
  unfold decode_registers
  rw [if_neg (by simp), hdv]

theorem decode_pair_int32 (f : Nat → ℚ) (a b : Nat) (order : String) (scale : ℚ) (v : Int)
    (h : unpack_i32_from_regs [a, b] order = some v) :
    decode_registers f [a, b] "int32" order scale =
      DecodeResult.scalar (_apply_scale_read ((v : ℚ)) scale) := by
  have hdv : decodedVals f [a, b] "int32" order scale =
      [_apply_scale_read ((v : ℚ)) scale] := by
    unfold decodedVals
    rw [show pyLower (if ("int32" : String) = "" then "int16" else "int32") = "int32" from
      by decide, if_neg (by decide), if_neg (by decide), if_pos rfl,
      show i32chunks [a, b] = [(a, b)] from rfl]
    simp [h]
  unfold decode_registers
  rw [if_neg (by simp), hdv]

theorem decode_pair_f32 (f : Nat → ℚ) (a b : Nat) (order : String) (scale : ℚ) (p : Nat)
    (h : unpack_f32_from_regs [a, b] order = some p) :
    decode_registers f [a, b] "float32" order scale =
      DecodeResult.scalar (_apply_scale_read (f p) scale) := by
  have hdv : decodedVals f [a, b] "float32" order scale =
      [_apply_scale_read (f p) scale] := by
    unfold decodedVals
    rw [show pyLower (if ("float32" : String) = "" then "int16" else "float32") = "float32" from
      by decide, if_neg (by decide), if_neg (by decide), if_neg (by decide), if_pos rfl,
      show i32chunks [a, b] = [(a, b)] from rfl]
    simp [h]
  unfold decode_registers
  rw [if_neg (by simp), hdv]

/-! ### Sign/mask value round trips -/

theorem int16_roundtrip_val (n : Int) (h1 : -32768 ≤ n) (h2 : n < 32768) :
    (if mask16 n < 32768 then ((mask16 n : Nat) : ℚ) else ((mask16 n : Nat) : ℚ) - 65536) =
      ((n : ℚ)) := by
  have hm : ((mask16 n : Nat) : Int) = n % 65536 := by
    unfold mask16
    omega
  by_cases hc : mask16 n < 32768
  · rw [if_pos hc]
    have hNat : (mask16 n : Nat) = n.toNat := by omega
    rw [hNat]
    exact_mod_cast Int.toNat_of_nonneg (by omega)
  · rw [if_neg hc]
    have hNat : (mask16 n : Nat) = (n + 65536).toNat := by omega
    have hcast : (((n + 65536).toNat : Nat) : ℚ) = ((n : ℚ)) + 65536 := by
      have h3 : (((n + 65536).toNat : Nat) : Int) = n + 65536 :=
        Int.toNat_of_nonneg (by omega)
      exact_mod_cast h3
    rw [hNat, hcast]
    ring

theorem uint16_roundtrip_val (n : Int) (h1 : 0 ≤ n) (h2 : n < 65536) :
    ((mask16 (n % 65536) % 65536 : Nat) : ℚ) = ((n : ℚ)) := by
  have hm : ((mask16 (n % 65536) : Nat) : Int) = n % 65536 % 65536 := by
    unfold mask16
    omega
  have hNat : (mask16 (n % 65536) % 65536 : Nat) = n.toNat := by omega
  rw [hNat]
  exact_mod_cast Int.toNat_of_nonneg h1

/-! ### C1: encode/decode round trip -/

/-- C1: for all four byte/word orders and scale 1, decoding the register
list produced by encoding a representable value returns that value: exactly
for int16 (signed 16-bit range), uint16 (0..65535) and int32 (signed 32-bit
range), where the value is the parsed numeric content of the single encoded
token; and for float32 on any value whose IEEE-754 single-precision
conversion round-trips (every representable float32 value), where the
result is exact and hence within any floating tolerance. -/
theorem roundtrip_spec (f32pat : ℚ → Nat) (f32val : Nat → ℚ) (vt t order : String) (x : ℚ)
    (ho : order ∈ fourOrders) (hs : splitTokens vt = [t]) (hn : _to_num t = some x) :
    (∀ n : Int, x = ((n : ℚ)) → -32768 ≤ n → n < 32768 →
      ∃ regs, build_registers f32pat vt "int16" order 1 = some regs ∧
        decode_registers f32val regs "int16" order 1 = DecodeResult.scalar ((n : ℚ))) ∧
    (∀ n : Int, x = ((n : ℚ)) → 0 ≤ n → n < 65536 →
      ∃ regs, build_registers f32pat vt "uint16" order 1 = some regs ∧
        decode_registers f32val regs "uint16" order 1 = DecodeResult.scalar ((n : ℚ))) ∧
    (∀ n : Int, x = ((n : ℚ)) → -2147483648 ≤ n → n < 2147483648 →
      ∃ regs, build_registers f32pat vt "int32" order 1 = some regs ∧
        decode_registers f32val regs "int32" order 1 = DecodeResult.scalar ((n : ℚ))) ∧
    (f32pat x < 4294967296 → f32val (f32pat x) = x →
      ∃ regs, build_registers f32pat vt "float32" order 1 = some regs ∧
        decode_registers f32val regs "float32" order 1 = DecodeResult.scalar x) := by
  refine ⟨?_, ?_, ?_, ?_⟩
  · intro n hx h1 h2
    subst hx
    have hb := build_single_i16 f32pat vt t order ((n : ℚ)) 1 hs hn
    rw [_apply_scale_write_one, pyRound_intCast] at hb
    refine ⟨[mask16 n], hb, ?_⟩
    rw [decode_single_int16, _apply_scale_read_one, int16_roundtrip_val n h1 h2]
  · intro n hx h1 h2
    subst hx
    have hb := build_single_u16 f32pat vt t order ((n : ℚ)) 1 hs hn
    rw [_apply_scale_write_one, pyRound_intCast] at hb
    refine ⟨[mask16 (n % 65536)], hb, ?_⟩
    rw [decode_single_uint16, _apply_scale_read_one, uint16_roundtrip_val n h1 h2]
  · intro n hx h1 h2
    subst hx
    obtain ⟨a, b, hpk, hup⟩ := unpack_pack_i32 n order h1 h2 ho
    have hb := build_single_i32 f32pat vt t order ((n : ℚ)) 1 hs hn
    rw [_apply_scale_write_one, pyRound_intCast, hpk] at hb
    refine ⟨[a, b], hb, ?_⟩
    rw [decode_pair_int32 f32val a b order 1 n hup, _apply_scale_read_one]
  · intro hlt hround
    obtain ⟨a, b, hpk, hup⟩ := unpack_pack_f32 (f32pat x) order hlt ho
    have hb := build_single_f32 f32pat vt t order x 1 hs hn
    rw [_apply_scale_write_one, hpk] at hb
    refine ⟨[a, b], hb, ?_⟩
    rw [decode_pair_f32 f32val a b order 1 (f32pat x) hup, _apply_scale_read_one, hround]

/-- Witness for C1: the int16 round trip at value -5 with order DCBA. -/
theorem roundtrip_spec_witness :
    ∃ regs, build_registers (fun _ => 0) "-5" "int16" "DCBA" 1 = some regs ∧
      decode_registers (fun _ => 0) regs "int16" "DCBA" 1 =
        DecodeResult.scalar (((-5 : Int) : ℚ)) :=
  (roundtrip_spec (fun _ => 0) (fun _ => 0) "-5" "-5" "DCBA" (-1 * ((5 : Nat) : ℚ))
    (by decide) (by decide) rfl).1 (-5) (by norm_num) (by norm_num) (by norm_num)

/-! ### C6: scaling -/

theorem iscloseOne_tenth : iscloseOne (1/10) = false := by
  norm_num [iscloseOne, abs, max_def]

/-- C6: scaling is a no-op when scale is 0 or within isclose tolerance of
1.0 (in particular no division by zero ever happens); otherwise encode for
integer datatypes divides the value by the scale before rounding and decode
multiplies the raw value by the scale; concretely, encoding "250" with
scale 0.1 as uint16 yields the single register 2500 and decoding [2500]
with scale 0.1 yields 250. -/
theorem scale_spec :
    (∀ v s : ℚ, s = 0 ∨ iscloseOne s = true →
      _apply_scale_write v s = v ∧ _apply_scale_read v s = v) ∧
    (∀ v s : ℚ, s ≠ 0 → iscloseOne s = false →
      _apply_scale_write v s = v / s ∧ _apply_scale_read v s = v * s) ∧
    (∀ f32 : ℚ → Nat,
      build_registers f32 "250" "uint16" "ABCD" (1/10) = some [2500]) ∧
    (∀ fv : Nat → ℚ,
      decode_registers fv [2500] "uint16" "ABCD" (1/10) = DecodeResult.scalar 250) := by
  refine ⟨?_, ?_, ?_, ?_⟩
  · intro v s h
    exact ⟨_apply_scale_write_noop v s h, _apply_scale_read_noop v s h⟩
  · intro v s h0 h1
    exact ⟨_apply_scale_write_div v s h0 h1, _apply_scale_read_mul v s h0 h1⟩
  · intro f32
    have hb := build_single_u16 f32 "250" "250" "ABCD" (1 * ((250 : Nat) : ℚ)) (1/10)
      (by decide) rfl
    rw [_apply_scale_write_div _ _ (by norm_num) iscloseOne_tenth,
      show (1 * ((250 : Nat) : ℚ)) / (1/10) = ((2500 : Int) : ℚ) from by norm_num,
      pyRound_intCast, show mask16 ((2500 : Int) % 65536) = 2500 from by decide] at hb
    exact hb
  · intro fv
    rw [decode_single_uint16, _apply_scale_read_mul _ _ (by norm_num) iscloseOne_tenth,
      show ((2500 % 65536 : Nat) : ℚ) = 2500 from by norm_num,
      show (2500 : ℚ) * (1/10) = 250 from by norm_num]

/-- Witness for C6 discharging each guard shape concretely. -/
theorem scale_spec_witness :
    _apply_scale_write 5 0 = 5 ∧ _apply_scale_write 7 2 = 7 / 2 ∧
      _apply_scale_read 7 2 = 7 * 2 :=
  ⟨(scale_spec.1 5 0 (Or.inl rfl)).1,
   (scale_spec.2.1 7 2 (by norm_num) (by norm_num [iscloseOne, abs, max_def])).1,
   (scale_spec.2.1 7 2 (by norm_num) (by norm_num [iscloseOne, abs, max_def])).2⟩

/-! ### Executor fixtures -/

/-- A successful, empty pymodbus response. -/
def okResp : MResp := ⟨false, "", [], []⟩

/-- A client oracle with a fixed connect outcome and a fixed response to
every function call. -/
def constClient (c : PyResult Bool) (resp : PyResult MResp) : ClientOps :=
  ⟨c, fun _ _ _ => resp, fun _ _ _ => resp, fun _ _ _ => resp, fun _ _ _ => resp,
   fun _ _ _ => resp, fun _ _ _ => resp, fun _ _ _ => resp, fun _ _ _ => resp⟩

/-- A sample row against 10.0.0.5 with the given function and value text. -/
def sampleRow (fn val : String) : Row :=
  ⟨"10.0.0.5", 1, fn, 0, 1, "uint16", "W", 1, "ABCD", val⟩

/-! ### C3: connection cache on connect failure -/

/-- C3 counterexample: with an empty cache and an endpoint whose connect()
returns False, the operation fails with the connect-failed result, yet the
cache is NOT left unchanged: the newly constructed handle has been stored
under the (host, port, timeout) key. -/
theorem connect_fail_cache_counterexample :
    (perform_row (fun _ => constClient (PyResult.ok false) (PyResult.ok okResp)) 0
        (fun _ => 0) (fun _ => 0) (sampleRow "read_holding" "") [] 3 false).2 =
      [(("10.0.0.5", 502, 3), 0)] ∧
    (perform_row (fun _ => constClient (PyResult.ok false) (PyResult.ok okResp)) 0
        (fun _ => 0) (fun _ => 0) (sampleRow "read_holding" "") [] 3 false).1 =
      PyResult.ok ⟨false, some "connect failed: 10.0.0.5:502", none, none⟩ := by
  exact ⟨by decide, by decide⟩

/-- C3 amended: on a cache miss the new client handle is stored in the
cache before connect() is attempted, so a failed connect leaves the handle
cached under its key (the operation itself failing with the connect-failed
result); a subsequent operation on the same key finds that cached handle
and calls connect() on it again, so session establishment is re-attempted
on every operation — on the cached client object, not from scratch. -/
theorem connect_fail_cache_amended (env : Nat → ClientOps) (freshId cid : Nat)
    (f32 : ℚ → Nat) (fv : Nat → ℚ) (row : Row) (clients : Cache) (timeout : ℚ)
    (dry : Bool) :
    (cacheGet clients (rowKey row timeout) = none →
      (env freshId).connect = PyResult.ok false →
      perform_row env freshId f32 fv row clients timeout dry =
        (PyResult.ok ⟨false, some ("connect failed: " ++ (rowKey row timeout).1 ++ ":" ++
            toString (rowKey row timeout).2.1), none, none⟩,
         (rowKey row timeout, freshId) :: clients)) ∧
    (cacheGet clients (rowKey row timeout) = some cid →
      (env cid).connect = PyResult.ok false →
      perform_row env freshId f32 fv row clients timeout dry =
        (PyResult.ok ⟨false, some ("connect failed: " ++ (rowKey row timeout).1 ++ ":" ++
            toString (rowKey row timeout).2.1), none, none⟩, clients)) := by
  constructor
  · intro h1 h2
    simp only [perform_row, acquireClient, h1, h2]
  · intro h1 h2
    simp only [perform_row, acquireClient, h1, h2]

/-- Witness for C3 (amended), retry case: a second operation against a key
whose cached handle keeps failing to connect fails again and leaves the
cache as it was. -/
theorem connect_fail_cache_amended_witness :
    perform_row (fun _ => constClient (PyResult.ok false) (PyResult.ok okResp)) 9
      (fun _ => 0) (fun _ => 0) (sampleRow "read_holding" "") [(("10.0.0.5", 502, 3), 7)]
      3 false =
    (PyResult.ok ⟨false, some ("connect failed: " ++ "10.0.0.5" ++ ":" ++ toString 502),
      none, none⟩, [(("10.0.0.5", 502, 3), 7)]) := by
  have h := (connect_fail_cache_amended
    (fun _ => constClient (PyResult.ok false) (PyResult.ok okResp)) 9 7 (fun _ => 0)
    (fun _ => 0) (sampleRow "read_holding" "") [(("10.0.0.5", 502, 3), 7)] 3 false).2
    (by decide) (by decide)
  rw [show rowKey (sampleRow "read_holding" "") 3 = ("10.0.0.5", 502, 3) from by decide] at h
  exact h

/-! ### C7: exception handling boundary of the executor -/

/-- C7 counterexample: an exception raised during connection acquisition
(here connect() raising OSError) is NOT caught by the executor — it
propagates to the caller instead of being converted into an
ok=false/error result. -/
theorem executor_catch_counterexample :
    (perform_row (fun _ => constClient (PyResult.exn "OSError" "boom") (PyResult.ok okResp)) 0
        (fun _ => 0) (fun _ => 0) (sampleRow "read_holding" "") [] 3 false).1 =
      PyResult.exn "OSError" "boom" := by
  decide

/-- C7 amended: the try block covers only the function dispatch (step 4):
an exception raised there is caught and converted into
{ok: false, error: "<kind>: <message>"}; and whenever connect() returns
a boolean rather than raising, the executor returns a result to its caller
(it propagates no fault of its own).  An exception during connection
acquisition (step 3), by contrast, is outside the try block (see the
counterexample). -/
theorem executor_catch_amended (env : Nat → ClientOps) (freshId : Nat) (f32 : ℚ → Nat)
    (fv : Nat → ℚ) (row : Row) (clients : Cache) (timeout : ℚ) (dry : Bool) :
    (∀ k m, (env (acquireClient clients (rowKey row timeout) freshId).1).connect =
        PyResult.ok true →
      dispatchRow (env (acquireClient clients (rowKey row timeout) freshId).1) f32 fv
          (pyLower (pyStrip row.function)) row.address (normCount row.count)
          (normUnitId row.unit_id) (pyLower row.datatype) row.endianness
          (normScale row.scale) row.value dry = PyResult.exn k m →
      (perform_row env freshId f32 fv row clients timeout dry).1 =
        PyResult.ok ⟨false, some (k ++ ": " ++ m), none, none⟩) ∧
    ((∃ b, (env (acquireClient clients (rowKey row timeout) freshId).1).connect =
        PyResult.ok b) →
      ∃ r, (perform_row env freshId f32 fv row clients timeout dry).1 = PyResult.ok r) := by
  constructor
  · intro k m hconn hdisp
    simp only [perform_row, hconn, hdisp]
  · rintro ⟨b, hconn⟩
    cases b
    · exact ⟨⟨false, some ("connect failed: " ++ (rowKey row timeout).1 ++ ":" ++
        toString (rowKey row timeout).2.1), none, none⟩, by simp only [perform_row, hconn]⟩
    · rcases hdisp : dispatchRow (env (acquireClient clients (rowKey row timeout) freshId).1)
          f32 fv (pyLower (pyStrip row.function)) row.address (normCount row.count)
          (normUnitId row.unit_id) (pyLower row.datatype) row.endianness
          (normScale row.scale) row.value dry with r | ⟨k, m⟩
      · exact ⟨r, by simp only [perform_row, hconn, hdisp]⟩
      · exact ⟨⟨false, some (k ++ ": " ++ m), none, none⟩,
          by simp only [perform_row, hconn, hdisp]⟩

/-- Witness for C7 (amended): a ValueError raised inside the dispatch (a
non-numeric write token) is converted into an ok=false result. -/
theorem executor_catch_amended_witness :
    (perform_row (fun _ => constClient (PyResult.ok true) (PyResult.ok okResp)) 0
        (fun _ => 0) (fun _ => 0) (sampleRow "write_register" "abc") [] 3 false).1 =
      PyResult.ok ⟨false, some ("ValueError" ++ ": " ++ ("could not encode value: " ++ "abc")),
        none, none⟩ :=
  (executor_catch_amended (fun _ => constClient (PyResult.ok true) (PyResult.ok okResp)) 0
    (fun _ => 0) (fun _ => 0) (sampleRow "write_register" "abc") [] 3 false).1
    "ValueError" ("could not encode value: " ++ "abc") (by decide) (by decide)

/-! ### C9: write-multiple-coils with empty value text -/

theorem dispatchRow_write_coils_empty (ops : ClientOps) (f32 : ℚ → Nat) (fv : Nat → ℚ)
    (fn : String) (addr countN : Nat) (unit : Int) (dtype endv : String) (scale : ℚ)
    (vt : String) (dry : Bool)
    (hfn : fn ∈ ["write_multi", "write_multiple_coils", "write coils", "write_coils"])
    (hval : splitTokens vt = []) :
    dispatchRow ops f32 fv fn addr countN unit dtype endv scale vt dry =
      (if dry then PyResult.ok ⟨true, none, some (RValue.bits [false]), none⟩
       else
        match ops.write_coils addr [false] unit with
        | PyResult.exn k m => PyResult.exn k m
        | PyResult.ok wr =>
          PyResult.ok ⟨!wr.isErr, if wr.isErr then some wr.errStr else none,
            some (RValue.bits [false]), none⟩) := by
  fin_cases hfn <;>
  · unfold dispatchRow
    rw [if_neg (by decide), if_neg (by decide), if_pos (by decide)]
    simp [hval]

/-- C9: a write-multiple-coils operation whose value text contains no
tokens (empty, or delimiters only) always writes exactly one False coil,
never an empty list: in dry mode the result is ok with value [false] and no
transport call; in non-dry mode the transport write is issued with the
single-element list [false] and the result reports value [false], with ok
mirroring the transport response. -/
theorem write_coils_empty_spec (env : Nat → ClientOps) (freshId : Nat) (f32 : ℚ → Nat)
    (fv : Nat → ℚ) (row : Row) (clients : Cache) (timeout : ℚ)
    (hconn : (env (acquireClient clients (rowKey row timeout) freshId).1).connect =
      PyResult.ok true)
    (hfn : pyLower (pyStrip row.function) ∈
      ["write_multi", "write_multiple_coils", "write coils", "write_coils"])
    (hval : splitTokens row.value = []) :
    ((perform_row env freshId f32 fv row clients timeout true).1 =
      PyResult.ok ⟨true, none, some (RValue.bits [false]), none⟩) ∧
    (∀ wr, (env (acquireClient clients (rowKey row timeout) freshId).1).write_coils
        row.address [false] (normUnitId row.unit_id) = PyResult.ok wr →
      (perform_row env freshId f32 fv row clients timeout false).1 =
        PyResult.ok ⟨!wr.isErr, if wr.isErr then some wr.errStr else none,
          some (RValue.bits [false]), none⟩) := by
  constructor
  · have hd := dispatchRow_write_coils_empty
      (env (acquireClient clients (rowKey row timeout) freshId).1) f32 fv
      (pyLower (pyStrip row.function)) row.address (normCount row.count)
      (normUnitId row.unit_id) (pyLower row.datatype) row.endianness
      (normScale row.scale) row.value true hfn hval
    simp only [perform_row, hconn, hd]
    simp
  · intro wr hwr
    have hd := dispatchRow_write_coils_empty
      (env (acquireClient clients (rowKey row timeout) freshId).1) f32 fv
      (pyLower (pyStrip row.function)) row.address (normCount row.count)
      (normUnitId row.unit_id) (pyLower row.datatype) row.endianness
      (normScale row.scale) row.value false hfn hval
    simp only [perform_row, hconn, hd]
    rw [hwr]
    simp

/-- Witness for C9 on a delimiter-only value text in non-dry mode. -/
theorem write_coils_empty_spec_witness :
    (perform_row (fun _ => constClient (PyResult.ok true) (PyResult.ok okResp)) 0
        (fun _ => 0) (fun _ => 0) (sampleRow "write_coils" " ; , ") [] 3 false).1 =
      PyResult.ok ⟨true, none, some (RValue.bits [false]), none⟩ := by
  have h := (write_coils_empty_spec
    (fun _ => constClient (PyResult.ok true) (PyResult.ok okResp)) 0 (fun _ => 0)
    (fun _ => 0) (sampleRow "write_coils" " ; , ") [] 3 (by decide) (by decide)
    (by decide)).2 okResp (by decide)
  simpa [okResp] using h
